import Mathlib

/-!
Verification of the streaming JSON encoder in
src/ios/vendor/bugsnag-cocoa/Bugsnag/KSCrash/Source/KSCrash/Recording/Tools/BSG_KSJSONCodec.c.

The C file is embedded shallowly: bytes are naturals below 256, the callers
sink (the addJSONData callback) is a function from the call index and the
chunk to a status, and every encoder function threads an explicit context.
The context records every byte handed to the sink in the field out, so
theorems about emitted output are statements about that field.
-/

namespace BSGKSJSON

/-- Status codes of the codec.  Modelled from the spec: the enum constants
are declared in the header BSG_KSJSONCodec.h, which is not among the source
files; the spec lists the caller-visible codes as OK, invalid-character,
cannot-add-data, incomplete and invalid-data. -/
inductive Status where
  | ok
  | invalidCharacter
  | cannotAddData
  | incomplete
  | invalidData
deriving DecidableEq, Repr

/-- Encoding context.  Modelled from the spec and from the field uses in
BSG_KSJSONCodec.c (the struct itself is declared in the missing header).
sink is the caller-supplied addJSONData callback, modelled as a function of
the call index and the chunk; callCount counts sink invocations; out records
every byte handed to the sink.  isObject is the container-kind array indexed
by depth; the C array has a fixed compile-time capacity and exceeding it is
undefined behaviour, so the model uses an unbounded map (all claims stay in
bounds).  containerLevel is an int in C and is kept as an Int here. -/
structure EncodeContext where
  sink : Nat → List Nat → Status
  callCount : Nat
  out : List Nat
  prettyPrint : Bool
  containerLevel : Int
  isObject : Int → Bool
  containerFirstEntry : Bool

/-- The addJSONData macro: hand a chunk to the sink and return its status.
The chunk is recorded in out (it was delivered to the sink) and the call
counter advances. -/
def addJSONData (ctx : EncodeContext) (data : List Nat) : Status × EncodeContext :=
  (ctx.sink ctx.callCount data,
   { ctx with callCount := ctx.callCount + 1, out := ctx.out ++ data })

/-- Byte of a decimal digit. -/
def digitByte (d : Nat) : Nat := d + 48

/-- Loop of uint64_to_string: emit value mod 10, divide by 10, stop when the
quotient is zero; digits come out most significant first.  The loop runs at
most 20 times; fuel at least the value itself is always enough since the
value strictly shrinks, so the fuel-0 case is never reached from
uint64_to_string. -/
def uint64_digits_fuel : Nat → Nat → List Nat
  | 0, value => [digitByte (value % 10)]
  | fuel + 1, value =>
    if value < 10 then [digitByte (value % 10)]
    else uint64_digits_fuel fuel (value / 10) ++ [digitByte (value % 10)]

/-- uint64_to_string: 0 prints as the single digit 0, otherwise the minimal
decimal digit run. -/
def uint64_to_string (value : Nat) : List Nat :=
  if value = 0 then [48] else uint64_digits_fuel value value

/-- int64_to_string.  For a negative value the C source writes a minus sign
and computes -value as a signed int64 negation, which overflows at INT64_MIN;
the value that actually reaches the uint64 parameter is the twos-complement
result, i.e. (-value) mod 2^64, which the model makes explicit. -/
def int64_to_string (value : Int) : List Nat :=
  if value < 0 then 45 :: uint64_to_string ((-value).toNat % 2 ^ 64)
  else uint64_to_string value.toNat

/-- Whether the signed negation -value performed by int64_to_string in the C
source overflows int64, i.e. the mathematical negation is not representable. -/
def int64_neg_overflows (value : Int) : Bool :=
  decide (value < 0) && decide (2 ^ 63 ≤ -value)

/-- Decimal parser for digit runs (spec side, used to state round-trips). -/
def parseDecDigits (l : List Nat) : Nat :=
  l.foldl (fun acc c => acc * 10 + (c - 48)) 0

/-- Decimal parser for optionally minus-signed numbers (spec side). -/
def parseDecInt (l : List Nat) : Int :=
  match l with
  | 45 :: rest => -(parseDecDigits rest : Int)
  | _ => (parseDecDigits l : Int)

/-- The special double values that the leading branches of
positive_double_to_string inspect: the two IEEE 754 zeroes, NaN and the two
infinities. -/
inductive SpecialDouble where
  | posZero
  | negZero
  | nan
  | posInf
  | negInf
deriving DecidableEq, Repr

/-- IEEE 754 ordered comparison value < 0 on the special values: negative
zero compares equal to zero, NaN compares false against everything. -/
def sd_isLtZero : SpecialDouble → Bool
  | .negInf => true
  | _ => false

/-- IEEE 754 comparison value == 0 on the special values. -/
def sd_isEqZero : SpecialDouble → Bool
  | .posZero => true
  | .negZero => true
  | _ => false

/-- isnan on the special values. -/
def sd_isNan : SpecialDouble → Bool
  | .nan => true
  | _ => false

/-- isinf on the special values. -/
def sd_isInf : SpecialDouble → Bool
  | .posInf => true
  | .negInf => true
  | _ => false

/-- IEEE 754 negation restricted to the special values. -/
def sd_neg : SpecialDouble → SpecialDouble
  | .posZero => .negZero
  | .negZero => .posZero
  | .nan => .nan
  | .posInf => .negInf
  | .negInf => .posInf

/-- positive_double_to_string restricted to the special values: the source
checks value == 0, then isnan, then isinf, in that order.  Every special
value is caught by one of the three checks; the remaining general
finite-number algorithm of the source is never reached by them and is
rendered as none. -/
def positive_double_to_string (v : SpecialDouble) : Option String :=
  if sd_isEqZero v then some "0"
  else if sd_isNan v then some "nan"
  else if sd_isInf v then some "inf"
  else none

/-- double_to_string on the special values: a minus sign is written and the
value negated whenever value < 0 holds under IEEE comparison. -/
def double_to_string (v : SpecialDouble) : Option String :=
  if sd_isLtZero v then (positive_double_to_string (sd_neg v)).map (fun s => "-" ++ s)
  else positive_double_to_string v

/-- The hex nybble table bsg_g_hexNybbles, as byte values 0-9 then A-F. -/
def bsg_g_hexNybbles : List Nat :=
  [48, 49, 50, 51, 52, 53, 54, 55, 56, 57, 65, 66, 67, 68, 69, 70]

/-- Lookup in the nybble table. -/
def hexNybble (i : Nat) : Nat := bsg_g_hexNybbles.getD i 0

/-- Image of a single input byte under the switch in
bsg_ksjsoncodec_i_appendEscapedString: backslash and quote are prefixed with
a backslash, the five named control characters get their two-byte escapes,
every other byte below 0x20 becomes a six-byte \u00XX escape built from the
nybble table (the source computes last = c mod 16 and first = (c - last)/16),
and every other byte passes through unchanged. -/
def escapeByte (c : Nat) : List Nat :=
  if c = 92 ∨ c = 34 then [92, c]
  else if c = 8 then [92, 98]
  else if c = 12 then [92, 102]
  else if c = 10 then [92, 110]
  else if c = 13 then [92, 114]
  else if c = 9 then [92, 116]
  else if c < 32 then [92, 117, 48, 48, hexNybble ((c - c % 16) / 16), hexNybble (c % 16)]
  else [c]

/-- Concatenated per-byte escapes (spec side, used to state what the
buffered escaper emits). -/
def escMap : List Nat → List Nat
  | [] => []
  | x :: xs => escapeByte x ++ escMap xs

/-- The local work buffer of appendEscapedString.  buf holds the bytes
currently in the buffer (the dst write position is its length); high is a
ghost high-water mark recording the largest buffer length ever reached, i.e.
one past the largest index ever written, so high ≤ capacity says every write
landed inside the buffer. -/
structure EscBuf where
  buf : List Nat
  high : Nat

/-- Write one byte at the current dst position. -/
def pushB (b : EscBuf) (x : Nat) : EscBuf :=
  { buf := b.buf ++ [x], high := max b.high (b.buf.length + 1) }

/-- Write a run of bytes one by one. -/
def pushBytes (b : EscBuf) (l : List Nat) : EscBuf := l.foldl pushB b

/-- BSG_KSJSONCODEC_WorkBufferSize. -/
def workBufferSize : Nat := 512

/-- Fast path of appendEscapedString: copy bytes verbatim while the byte is
neither backslash nor quote and is not a control character; return the
remaining input and the buffer. -/
def fastPath : List Nat → EscBuf → List Nat × EscBuf
  | [], b => ([], b)
  | x :: xs, b =>
    if x ≠ 92 ∧ x ≠ 34 ∧ 32 ≤ x then fastPath xs (pushB b x)
    else (x :: xs, b)

/-- Slow path of appendEscapedString: per byte, if fewer than 6 free bytes
remain in the buffer, flush it to the sink (propagating a sink failure) and
reset dst, then write the escape of the byte. -/
def slowLoop (ctx : EncodeContext) (b : EscBuf) (s : List Nat) :
    Status × EncodeContext × EscBuf :=
  match s with
  | [] => (Status.ok, ctx, b)
  | x :: xs =>
    if b.buf.length + 6 > workBufferSize then
      let p := addJSONData ctx b.buf
      if p.1 = Status.ok then
        slowLoop p.2 (pushBytes { buf := [], high := b.high } (escapeByte x)) xs
      else (p.1, p.2, b)
    else slowLoop ctx (pushBytes b (escapeByte x)) xs

/-- bsg_ksjsoncodec_i_appendEscapedString: fast path, then slow path, then a
final unconditional flush of the buffer.  The returned Nat is the ghost
high-water mark of the work buffer. -/
def bsg_ksjsoncodec_i_appendEscapedString (ctx : EncodeContext) (s : List Nat) :
    Status × EncodeContext × Nat :=
  let fp := fastPath s { buf := [], high := 0 }
  let sl := slowLoop ctx fp.2 fp.1
  if sl.1 = Status.ok then
    let p := addJSONData sl.2.1 sl.2.2.buf
    (p.1, p.2, sl.2.2.high)
  else (sl.1, sl.2.1, sl.2.2.high)

/-- Chunking loop of bsg_ksjsoncodec_i_addEscapedString: feed the input to
appendEscapedString in slices of at most workBufferSize bytes, stopping at
the first failure.  The loop consumes at least one byte per iteration, so
fuel equal to the input length is always enough and the fuel-0 fallback is
never reached from the wrapper below.  The returned Nat is the largest ghost
high-water mark over all slices. -/
def addEscapedFuel : Nat → EncodeContext → List Nat → Status × EncodeContext × Nat
  | _, ctx, [] => (Status.ok, ctx, 0)
  | 0, ctx, _ :: _ => (Status.ok, ctx, 0)
  | fuel + 1, ctx, x :: xs =>
    let s := x :: xs
    let p := bsg_ksjsoncodec_i_appendEscapedString ctx (s.take workBufferSize)
    if p.1 = Status.ok then
      let q := addEscapedFuel fuel p.2.1 (s.drop workBufferSize)
      (q.1, q.2.1, max p.2.2 q.2.2)
    else p

/-- bsg_ksjsoncodec_i_addEscapedString. -/
def bsg_ksjsoncodec_i_addEscapedString (ctx : EncodeContext) (s : List Nat) :
    Status × EncodeContext × Nat :=
  addEscapedFuel s.length ctx s

/-- bsg_ksjsoncodec_i_addQuotedEscapedString: opening quote, escaped body,
closing quote, stopping at the first failure. -/
def bsg_ksjsoncodec_i_addQuotedEscapedString (ctx : EncodeContext) (s : List Nat) :
    Status × EncodeContext :=
  let p := addJSONData ctx [34]
  if p.1 = Status.ok then
    let q := bsg_ksjsoncodec_i_addEscapedString p.2 s
    if q.1 = Status.ok then addJSONData q.2.1 [34]
    else (q.1, q.2.1)
  else p

/-- Four spaces of indentation per level (spec side, used to state outputs). -/
def indentBytes : Nat → List Nat
  | 0 => []
  | n + 1 => [32, 32, 32, 32] ++ indentBytes n

/-- The indentation for-loop of beginElement and endContainer: emit four
spaces once per open level, stopping at the first failure. -/
def indentLoop (ctx : EncodeContext) : Nat → Status × EncodeContext
  | 0 => (Status.ok, ctx)
  | n + 1 =>
    let p := addJSONData ctx [32, 32, 32, 32]
    if p.1 = Status.ok then indentLoop p.2 n
    else p

/-- bsg_ksjsonbeginElement: comma unless first entry in the container, then
newline plus indentation in pretty mode inside a container, then the quoted
escaped name and a colon when the current container is an object (a null
name there is invalid data). -/
def bsg_ksjsonbeginElement (ctx : EncodeContext) (name : Option (List Nat)) :
    Status × EncodeContext :=
  let c :=
    if ctx.containerFirstEntry then (Status.ok, { ctx with containerFirstEntry := false })
    else addJSONData ctx [44]
  if c.1 ≠ Status.ok then c
  else
    let ctx1 := c.2
    let pp :=
      if ctx1.prettyPrint ∧ ctx1.containerLevel > 0 then
        let p := addJSONData ctx1 [10]
        if p.1 = Status.ok then indentLoop p.2 ctx1.containerLevel.toNat
        else p
      else (Status.ok, ctx1)
    if pp.1 ≠ Status.ok then pp
    else
      let ctx2 := pp.2
      if ctx2.isObject ctx2.containerLevel then
        match name with
        | none => (Status.invalidData, ctx2)
        | some nm =>
          let q := bsg_ksjsoncodec_i_addQuotedEscapedString ctx2 nm
          if q.1 ≠ Status.ok then q
          else
            if q.2.prettyPrint then addJSONData q.2 [58, 32]
            else addJSONData q.2 [58]
      else (Status.ok, ctx2)

/-- bsg_ksjsonaddIntegerElement. -/
def bsg_ksjsonaddIntegerElement (ctx : EncodeContext) (name : Option (List Nat))
    (value : Int) : Status × EncodeContext :=
  let p := bsg_ksjsonbeginElement ctx name
  if p.1 ≠ Status.ok then p
  else addJSONData p.2 (int64_to_string value)

/-- bsg_ksjsonaddUIntegerElement. -/
def bsg_ksjsonaddUIntegerElement (ctx : EncodeContext) (name : Option (List Nat))
    (value : Nat) : Status × EncodeContext :=
  let p := bsg_ksjsonbeginElement ctx name
  if p.1 ≠ Status.ok then p
  else addJSONData p.2 (uint64_to_string value)

/-- bsg_ksjsonaddNullElement: the four bytes of null. -/
def bsg_ksjsonaddNullElement (ctx : EncodeContext) (name : Option (List Nat)) :
    Status × EncodeContext :=
  let p := bsg_ksjsonbeginElement ctx name
  if p.1 ≠ Status.ok then p
  else addJSONData p.2 [110, 117, 108, 108]

/-- The whitespace set skipped by bsg_ksjsonaddJSONElement: space, carriage
return, newline, tab, form feed. -/
def jsonWsByte (c : Nat) : Bool :=
  c = 32 || c = 13 || c = 10 || c = 9 || c = 12

/-- The bytes accepted by bsg_ksjsonaddJSONElement as the start of a JSON
payload: bracket, brace, quote, f, t, n, minus, or a decimal digit. -/
def jsonStartByte (c : Nat) : Bool :=
  c = 91 || c = 123 || c = 34 || c = 102 || c = 116 || c = 110 || c = 45 ||
    (48 ≤ c && c ≤ 57)

/-- bsg_ksjsonaddJSONElement (addRawJSON): a null payload is addNull; a
payload with no byte outside the whitespace set is invalid data; a payload
whose first non-whitespace byte is not a plausible JSON start is invalid
data, with nothing written; otherwise beginElement runs and the whole
payload, leading whitespace included, is copied verbatim to the sink.  The
index loop of the source is rendered as dropWhile. -/
def bsg_ksjsonaddJSONElement (ctx : EncodeContext) (name : Option (List Nat))
    (element : Option (List Nat)) : Status × EncodeContext :=
  match element with
  | none => bsg_ksjsonaddNullElement ctx name
  | some el =>
    match el.dropWhile jsonWsByte with
    | [] => (Status.invalidData, ctx)
    | c :: _ =>
      if jsonStartByte c then
        let p := bsg_ksjsonbeginElement ctx name
        if p.1 ≠ Status.ok then p
        else addJSONData p.2 el
      else (Status.invalidData, ctx)

/-- bsg_ksjsonaddStringElement: a null value is addNull, otherwise the
quoted escaped string.  The value is modelled as the byte run of the given
length (the BSG_KSJSON_SIZE_AUTOMATIC strlen branch only computes that run). -/
def bsg_ksjsonaddStringElement (ctx : EncodeContext) (name : Option (List Nat))
    (value : Option (List Nat)) : Status × EncodeContext :=
  match value with
  | none => bsg_ksjsonaddNullElement ctx name
  | some v =>
    let p := bsg_ksjsonbeginElement ctx name
    if p.1 ≠ Status.ok then p
    else bsg_ksjsoncodec_i_addQuotedEscapedString p.2 v

/-- bsg_ksjsonbeginStringElement: beginElement then an opening quote. -/
def bsg_ksjsonbeginStringElement (ctx : EncodeContext) (name : Option (List Nat)) :
    Status × EncodeContext :=
  let p := bsg_ksjsonbeginElement ctx name
  if p.1 ≠ Status.ok then p
  else addJSONData p.2 [34]

/-- bsg_ksjsonendStringElement: the closing quote. -/
def bsg_ksjsonendStringElement (ctx : EncodeContext) : Status × EncodeContext :=
  addJSONData ctx [34]

/-- bsg_ksjsonbeginDataElement. -/
def bsg_ksjsonbeginDataElement (ctx : EncodeContext) (name : Option (List Nat)) :
    Status × EncodeContext :=
  bsg_ksjsonbeginStringElement ctx name

/-- bsg_ksjsonappendDataElement: two uppercase hex nybbles per input byte,
each pair being one sink call, stopping at the first failure. -/
def bsg_ksjsonappendDataElement (ctx : EncodeContext) : List Nat → Status × EncodeContext
  | [] => (Status.ok, ctx)
  | byte :: rest =>
    let p := addJSONData ctx [hexNybble ((byte >>> 4) &&& 15), hexNybble (byte &&& 15)]
    if p.1 = Status.ok then bsg_ksjsonappendDataElement p.2 rest
    else p

/-- bsg_ksjsonendDataElement. -/
def bsg_ksjsonendDataElement (ctx : EncodeContext) : Status × EncodeContext :=
  bsg_ksjsonendStringElement ctx

/-- bsg_ksjsonaddDataElement (addDataAsHexString).  The byte list is the
data the hex loop reads; the C function performs no null check on the value
pointer, so a null pointer with length 0 corresponds to the empty list (and
a null pointer with nonzero length would dereference null). -/
def bsg_ksjsonaddDataElement (ctx : EncodeContext) (name : Option (List Nat))
    (value : List Nat) : Status × EncodeContext :=
  let p := bsg_ksjsonbeginDataElement ctx name
  if p.1 = Status.ok then
    let q := bsg_ksjsonappendDataElement p.2 value
    if q.1 = Status.ok then bsg_ksjsonendDataElement q.2
    else q
  else p

/-- bsg_ksjsonbeginArray: beginElement (the containerLevel >= 0 guard of the
source is kept even though every reachable level is nonnegative), push an
array level, reset the first-entry flag, emit the opening bracket. -/
def bsg_ksjsonbeginArray (ctx : EncodeContext) (name : Option (List Nat)) :
    Status × EncodeContext :=
  let p :=
    if 0 ≤ ctx.containerLevel then bsg_ksjsonbeginElement ctx name
    else (Status.ok, ctx)
  if p.1 ≠ Status.ok then p
  else
    let c := p.2
    let lvl := c.containerLevel + 1
    let c2 := { c with containerLevel := lvl,
                       isObject := fun i => if i = lvl then false else c.isObject i,
                       containerFirstEntry := true }
    addJSONData c2 [91]

/-- bsg_ksjsonbeginObject: as beginArray with an object level and an opening
brace. -/
def bsg_ksjsonbeginObject (ctx : EncodeContext) (name : Option (List Nat)) :
    Status × EncodeContext :=
  let p :=
    if 0 ≤ ctx.containerLevel then bsg_ksjsonbeginElement ctx name
    else (Status.ok, ctx)
  if p.1 ≠ Status.ok then p
  else
    let c := p.2
    let lvl := c.containerLevel + 1
    let c2 := { c with containerLevel := lvl,
                       isObject := fun i => if i = lvl then true else c.isObject i,
                       containerFirstEntry := true }
    addJSONData c2 [123]

/-- bsg_ksjsonendContainer: a no-op returning OK at level 0 or below;
otherwise pop the level, in pretty mode emit a newline and indentation when
the container was non-empty, clear the first-entry flag, and emit the
matching closing bracket. -/
def bsg_ksjsonendContainer (ctx : EncodeContext) : Status × EncodeContext :=
  if ctx.containerLevel ≤ 0 then (Status.ok, ctx)
  else
    let isObj := ctx.isObject ctx.containerLevel
    let c1 := { ctx with containerLevel := ctx.containerLevel - 1 }
    let pp :=
      if c1.prettyPrint ∧ c1.containerFirstEntry = false then
        let p := addJSONData c1 [10]
        if p.1 = Status.ok then indentLoop p.2 c1.containerLevel.toNat
        else p
      else (Status.ok, c1)
    if pp.1 ≠ Status.ok then pp
    else
      let c2 := { pp.2 with containerFirstEntry := false }
      addJSONData c2 (if isObj then [125] else [93])

/-- bsg_ksjsonbeginEncode: zeroed context with the sink, the pretty flag and
the first-entry flag set. -/
def bsg_ksjsonbeginEncode (prettyPrint : Bool) (sink : Nat → List Nat → Status) :
    EncodeContext :=
  { sink := sink, callCount := 0, out := [], prettyPrint := prettyPrint,
    containerLevel := 0, isObject := fun _ => false, containerFirstEntry := true }

/-- Loop of bsg_ksjsonendEncode: close containers while the level is
positive, returning the first failure.  Each iteration decrements the level
by one, so fuel equal to the starting level is always enough. -/
def endEncodeFuel : Nat → EncodeContext → Status × EncodeContext
  | 0, ctx => (Status.ok, ctx)
  | fuel + 1, ctx =>
    if 0 < ctx.containerLevel then
      let p := bsg_ksjsonendContainer ctx
      if p.1 = Status.ok then endEncodeFuel fuel p.2
      else p
    else (Status.ok, ctx)

/-- bsg_ksjsonendEncode. -/
def bsg_ksjsonendEncode (ctx : EncodeContext) : Status × EncodeContext :=
  endEncodeFuel ctx.containerLevel.toNat ctx

/-- A sink that accepts everything. -/
def okSink : Nat → List Nat → Status := fun _ _ => Status.ok

/-- A sink that rejects everything with cannot-add-data. -/
def failSink : Nat → List Nat → Status := fun _ _ => Status.cannotAddData

/-- Byte run of a string literal. -/
def strBytes (s : String) : List Nat := s.data.map Char.toNat

/-- Fresh compact-mode context over the accepting sink. -/
def freshCompact : EncodeContext := bsg_ksjsonbeginEncode false okSink

/-- Fresh pretty-mode context over the accepting sink. -/
def freshPretty : EncodeContext := bsg_ksjsonbeginEncode true okSink

/-- Expected output of closing n containers from the given level and
first-entry flag (spec side): per container, in pretty mode a newline and
the indentation of the popped-to level when the container was non-empty,
then the bracket matching the container kind at the current level. -/
def closeSeq (pretty : Bool) (isObj : Int → Bool) :
    Nat → Int → Bool → List Nat
  | 0, _, _ => []
  | n + 1, level, firstEntry =>
    (if pretty ∧ firstEntry = false then 10 :: indentBytes (level - 1).toNat else [])
      ++ (if isObj level then 125 else 93)
      :: closeSeq pretty isObj n (level - 1) false

/-- Claim C1 run, compact mode: beginObject(null). -/
def c1s1 : Status × EncodeContext := bsg_ksjsonbeginObject freshCompact none

/-- Claim C1 run, compact mode: addInteger(x, 5). -/
def c1s2 : Status × EncodeContext :=
  bsg_ksjsonaddIntegerElement c1s1.2 (some (strBytes "x")) 5

/-- Claim C1 run, compact mode: endContainer(). -/
def c1s3 : Status × EncodeContext := bsg_ksjsonendContainer c1s2.2

/-- Claim C1 run, pretty mode: beginObject(null). -/
def c1p1 : Status × EncodeContext := bsg_ksjsonbeginObject freshPretty none

/-- Claim C1 run, pretty mode: addInteger(x, 5). -/
def c1p2 : Status × EncodeContext :=
  bsg_ksjsonaddIntegerElement c1p1.2 (some (strBytes "x")) 5

/-- Claim C1 run, pretty mode: endContainer(). -/
def c1p3 : Status × EncodeContext := bsg_ksjsonendContainer c1p2.2

/-- Context with an object and inside it a named array open, for exercising
endEncode. -/
def twoOpen : EncodeContext :=
  (bsg_ksjsonbeginArray (bsg_ksjsonbeginObject freshCompact none).2
    (some (strBytes "a"))).2

/-- Context with two open containers over the rejecting sink, compact mode. -/
def twoOpenFail : EncodeContext :=
  { bsg_ksjsonbeginEncode false failSink with
      containerLevel := 2,
      isObject := fun i => if i = 1 then true else false,
      containerFirstEntry := false }

/-- Context at the root after one complete top-level value (null). -/
def afterRootValue : EncodeContext := (bsg_ksjsonaddNullElement freshCompact none).2

/-- Context with two nested arrays open, compact mode. -/
def twoArrays : EncodeContext :=
  (bsg_ksjsonbeginArray (bsg_ksjsonbeginArray freshCompact none).2 none).2

end BSGKSJSON

namespace BSGKSJSON

/-- Claim C1: on a freshly initialized compact-mode context the sequence
beginObject(null), addInteger(x, 5), endContainer() succeeds and the sink
receives exactly the seven bytes of the compact object, and the same
sequence in pretty mode yields the brace, newline, four spaces, quoted name,
colon and space, digit, newline, closing brace. -/
theorem c1_structural_encoding :
    c1s1.1 = Status.ok ∧ c1s2.1 = Status.ok ∧ c1s3.1 = Status.ok ∧
    c1s3.2.out = strBytes "\x7b\"x\":5\x7d" ∧
    c1p1.1 = Status.ok ∧ c1p2.1 = Status.ok ∧ c1p3.1 = Status.ok ∧
    c1p3.2.out = strBytes "\x7b\n    \"x\": 5\n\x7d" := by
  decide

/-- Claim C2 counterexample: the double formatter renders negative infinity
as -inf, not as the unsigned text inf the claim states: double_to_string
takes its value < 0 branch for negative infinity, writes the minus sign and
formats the negated value. -/
theorem c2_counterexample :
    double_to_string SpecialDouble.negInf = some "-inf" ∧
    ¬ double_to_string SpecialDouble.negInf = some "inf" := by
  decide

/-- Claim C2 amended: the double formatter maps positive zero and negative
zero to 0, NaN to nan, positive infinity to inf, and negative infinity to
-inf (the minus sign is kept because value < 0 holds for negative infinity). -/
theorem c2_special_double_formatting :
    double_to_string SpecialDouble.posZero = some "0" ∧
    double_to_string SpecialDouble.negZero = some "0" ∧
    double_to_string SpecialDouble.nan = some "nan" ∧
    double_to_string SpecialDouble.posInf = some "inf" ∧
    double_to_string SpecialDouble.negInf = some "-inf" := by
  decide

/-- Claim C3 counterexample: addRawJSON with payload xyz on a fresh context
returns invalid-data, not the invalid-character status the claim states, and
makes no sink call. -/
theorem c3_counterexample :
    (bsg_ksjsonaddJSONElement freshCompact none (some (strBytes "xyz"))).1 =
      Status.invalidData ∧
    ¬ (bsg_ksjsonaddJSONElement freshCompact none (some (strBytes "xyz"))).1 =
      Status.invalidCharacter ∧
    (bsg_ksjsonaddJSONElement freshCompact none (some (strBytes "xyz"))).2.callCount = 0 ∧
    (bsg_ksjsonaddJSONElement freshCompact none (some (strBytes "xyz"))).2.out = [] := by
  decide

/-- Claim C4 counterexample: addDataAsHexString has no null check, so the
call that corresponds to a null value pointer with length 0 (the empty byte
run) emits an empty quoted hex string, which differs from the output of
addNull with the same name. -/
theorem c4_counterexample :
    (bsg_ksjsonaddDataElement freshCompact none []).1 = Status.ok ∧
    (bsg_ksjsonaddDataElement freshCompact none []).2.out = strBytes "\"\"" ∧
    (bsg_ksjsonaddNullElement freshCompact none).2.out = strBytes "null" ∧
    ¬ (bsg_ksjsonaddDataElement freshCompact none []).2.out =
      (bsg_ksjsonaddNullElement freshCompact none).2.out := by
  decide

/-- Claim C4 amended: addString and addRawJSON treat a null value pointer
exactly as addNull with the same name; addDataAsHexString performs no null
check, and with length 0 it emits the empty quoted string rather than null. -/
theorem c4_null_value_adders :
    (∀ ctx name, bsg_ksjsonaddStringElement ctx name none =
      bsg_ksjsonaddNullElement ctx name) ∧
    (∀ ctx name, bsg_ksjsonaddJSONElement ctx name none =
      bsg_ksjsonaddNullElement ctx name) ∧
    (bsg_ksjsonaddDataElement freshCompact none []).1 = Status.ok ∧
    (bsg_ksjsonaddDataElement freshCompact none []).2.out = strBytes "\"\"" :=
  ⟨fun _ _ => rfl, fun _ _ => rfl, by decide, by decide⟩

/-- Claim C5 counterexample: at INT64_MIN the signed negation performed by
int64_to_string overflows int64 (the mathematical negation 2^63 is not
representable), contradicting the claim that formatting happens without
signed-arithmetic overflow; the emitted text is nevertheless the correct
decimal representation via the twos-complement conversion to uint64. -/
theorem c5_counterexample :
    int64_neg_overflows (-(2 ^ 63)) = true ∧
    int64_to_string (-(2 ^ 63)) = strBytes "-9223372036854775808" := by
  decide

end BSGKSJSON


namespace BSGKSJSON

/-- Claim C3 amended: addRawJSON with a payload whose first non-whitespace
byte is outside the accepted start set returns invalid-data (not
invalid-character) and leaves the context untouched, with no sink call; a
payload whose first non-whitespace byte is accepted runs beginElement and
then hands the whole payload verbatim to the sink. -/
theorem c3_raw_json_validation :
    (∀ ctx name el c rest, el.dropWhile jsonWsByte = c :: rest →
      jsonStartByte c = false →
      bsg_ksjsonaddJSONElement ctx name (some el) = (Status.invalidData, ctx)) ∧
    (∀ ctx name el c rest c2, el.dropWhile jsonWsByte = c :: rest →
      jsonStartByte c = true →
      bsg_ksjsonbeginElement ctx name = (Status.ok, c2) →
      bsg_ksjsonaddJSONElement ctx name (some el) = addJSONData c2 el) := by
  constructor
  · intro ctx name el c rest hdrop hbad
    unfold bsg_ksjsonaddJSONElement
    dsimp only
    rw [hdrop]
    simp [hbad]
  · intro ctx name el c rest c2 hdrop hgood hbe
    unfold bsg_ksjsonaddJSONElement
    dsimp only
    rw [hdrop]
    simp [hgood, hbe]

/-- Witness for claim C3: the failure branch at payload xyz and the success
branch at payload two-spaces-bracket-1-comma-2-bracket on a fresh compact
context. -/
theorem c3_witness :
    bsg_ksjsonaddJSONElement freshCompact none (some (strBytes "xyz")) =
      (Status.invalidData, freshCompact) ∧
    (bsg_ksjsonaddJSONElement freshCompact none (some (strBytes "  [1,2]"))).1 =
      Status.ok ∧
    (bsg_ksjsonaddJSONElement freshCompact none (some (strBytes "  [1,2]"))).2.out =
      strBytes "  [1,2]" := by
  have h2 := c3_raw_json_validation.2 freshCompact none (strBytes "  [1,2]") 91
    (strBytes "1,2]") { freshCompact with containerFirstEntry := false }
    (by decide) (by decide) rfl
  refine ⟨?_, ?_, ?_⟩
  · exact c3_raw_json_validation.1 freshCompact none (strBytes "xyz") 120
      (strBytes "yz") (by decide) (by decide)
  · rw [h2]; decide
  · rw [h2]; decide

lemma parseDecDigits_append (l : List Nat) (c : Nat) :
    parseDecDigits (l ++ [c]) = parseDecDigits l * 10 + (c - 48) := by
  simp [parseDecDigits, List.foldl_append]

lemma parseDecDigits_fuel (fuel : Nat) : ∀ v, v ≤ fuel →
    parseDecDigits (uint64_digits_fuel fuel v) = v := by
  induction fuel with
  | zero =>
    intro v hv
    have : v = 0 := by omega
    subst this
    decide
  | succ f ih =>
    intro v hv
    by_cases hlt : v < 10
    · simp [uint64_digits_fuel, hlt, parseDecDigits, digitByte]
    · simp only [uint64_digits_fuel, if_neg hlt]
      rw [parseDecDigits_append, ih (v / 10) (by omega)]
      simp only [digitByte]
      omega

lemma uint64_digits_fuel_ne_nil (fuel v : Nat) : uint64_digits_fuel fuel v ≠ [] := by
  cases fuel with
  | zero => simp [uint64_digits_fuel]
  | succ f => by_cases hv : v < 10 <;> simp [uint64_digits_fuel, hv]

lemma uint64_digits_fuel_head (fuel : Nat) : ∀ v, 1 ≤ v → v ≤ fuel →
    ∀ r, (uint64_digits_fuel fuel v).head? = some r → 49 ≤ r ∧ r ≤ 57 := by
  induction fuel with
  | zero => intro v h1 h2; omega
  | succ f ih =>
    intro v h1 h2 r hr
    by_cases hlt : v < 10
    · simp [uint64_digits_fuel, hlt, digitByte] at hr
      omega
    · rw [uint64_digits_fuel, if_neg hlt] at hr
      rcases hrec : uint64_digits_fuel f (v / 10) with _ | ⟨a, as⟩
      · exact absurd hrec (uint64_digits_fuel_ne_nil f (v / 10))
      · rw [hrec] at hr
        simp at hr
        subst hr
        exact ih (v / 10) (by omega) (by omega) a (by rw [hrec]; rfl)

lemma uint64_to_string_head (v : Nat) (h1 : 1 ≤ v) :
    ∀ r, (uint64_to_string v).head? = some r → 49 ≤ r ∧ r ≤ 57 := by
  intro r hr
  rw [uint64_to_string, if_neg (by omega)] at hr
  exact uint64_digits_fuel_head v v h1 le_rfl r hr

lemma parseDecDigits_uint64 (v : Nat) : parseDecDigits (uint64_to_string v) = v := by
  by_cases h : v = 0
  · subst h; decide
  · rw [uint64_to_string, if_neg h]
    exact parseDecDigits_fuel v v le_rfl

lemma parseDecInt_uint64 (v : Nat) : parseDecInt (uint64_to_string v) = (v : Int) := by
  rcases hv : uint64_to_string v with _ | ⟨a, as⟩
  · exfalso
    by_cases h : v = 0
    · subst h; simp [uint64_to_string] at hv
    · rw [uint64_to_string, if_neg h] at hv
      exact uint64_digits_fuel_ne_nil v v hv
  · have ha : a ≠ 45 := by
      by_cases h : v = 0
      · subst h
        simp [uint64_to_string] at hv
        omega
      · have := uint64_to_string_head v (by omega) a (by rw [hv]; rfl)
        omega
    have hp : parseDecInt (a :: as) = (parseDecDigits (a :: as) : Int) := by
      unfold parseDecInt
      split
      · rename_i rest heq
        injection heq with h1 h2
        exact absurd h1 ha
      · rfl
    have hd : parseDecDigits (a :: as) = v := by
      rw [← hv]
      exact parseDecDigits_uint64 v
    rw [hp, hd]

/-- Claim C5 amended: for every int64 value, INT64_MIN included, the
formatter emits the correct minimal decimal text (a leading minus and a
nonzero leading digit for negatives, a nonzero leading digit for positives)
and parsing the text back yields the value; at INT64_MIN this goes through
the twos-complement wraparound of the overflowing signed negation, which the
separate counterexample records. -/
theorem c5_int64_roundtrip :
    ∀ n : Int, -(2 ^ 63) ≤ n → n < 2 ^ 63 →
      parseDecInt (int64_to_string n) = n ∧
      (n < 0 → ∃ ds, int64_to_string n = 45 :: ds ∧
        ∀ r, ds.head? = some r → 49 ≤ r ∧ r ≤ 57) ∧
      (0 < n → ∀ r, (int64_to_string n).head? = some r → 49 ≤ r ∧ r ≤ 57) := by
  intro n hlo hhi
  by_cases hn : n < 0
  · have hm : ((-n).toNat % 2 ^ 64) = (-n).toNat := by
      apply Nat.mod_eq_of_lt
      omega
    refine ⟨?_, ?_, ?_⟩
    · simp only [int64_to_string, if_pos hn, hm]
      have hstep : parseDecInt (45 :: uint64_to_string (-n).toNat) =
          -(parseDecDigits (uint64_to_string (-n).toNat) : Int) := rfl
      rw [hstep, parseDecDigits_uint64]
      omega
    · intro _
      refine ⟨uint64_to_string (-n).toNat, ?_, ?_⟩
      · simp only [int64_to_string, if_pos hn, hm]
      · intro r hr
        exact uint64_to_string_head (-n).toNat (by omega) r hr
    · intro h0
      omega
  · push_neg at hn
    refine ⟨?_, fun h => absurd h (by omega), ?_⟩
    · rw [int64_to_string, if_neg (by omega), parseDecInt_uint64]
      omega
    · intro h0 r hr
      rw [int64_to_string, if_neg (by omega)] at hr
      exact uint64_to_string_head n.toNat (by omega) r hr

/-- Witness for claim C5 at the INT64_MIN boundary value. -/
theorem c5_witness :
    parseDecInt (int64_to_string (-(2 ^ 63))) = -(2 ^ 63) := by
  exact (c5_int64_roundtrip (-(2 ^ 63)) (by decide) (by decide)).1

lemma escMap_append (l1 l2 : List Nat) : escMap (l1 ++ l2) = escMap l1 ++ escMap l2 := by
  induction l1 with
  | nil => simp [escMap]
  | cons x xs ih => simp [escMap, ih]

lemma escapeByte_length (c : Nat) : (escapeByte c).length ≤ 6 := by
  unfold escapeByte
  split_ifs <;> simp

lemma escapeByte_clean (c : Nat) (h1 : 32 ≤ c) (h2 : c ≠ 92) (h3 : c ≠ 34) :
    escapeByte c = [c] := by
  unfold escapeByte
  rw [if_neg (by omega), if_neg (by omega), if_neg (by omega), if_neg (by omega),
      if_neg (by omega), if_neg (by omega), if_neg (by omega)]

lemma pushBytes_buf (l : List Nat) : ∀ b : EscBuf, (pushBytes b l).buf = b.buf ++ l := by
  induction l with
  | nil => intro b; simp [pushBytes]
  | cons x xs ih =>
    intro b
    show (pushBytes (pushB b x) xs).buf = b.buf ++ x :: xs
    rw [ih (pushB b x)]
    simp [pushB]

lemma pushBytes_high (l : List Nat) : ∀ b : EscBuf,
    (pushBytes b l).high ≤ max b.high (b.buf.length + l.length) := by
  induction l with
  | nil => intro b; simp [pushBytes]
  | cons x xs ih =>
    intro b
    have h := ih (pushB b x)
    have e1 : (pushB b x).high = max b.high (b.buf.length + 1) := rfl
    have e2 : (pushB b x).buf.length = b.buf.length + 1 := by simp [pushB]
    rw [e1, e2] at h
    show (pushBytes (pushB b x) xs).high ≤ max b.high (b.buf.length + (x :: xs).length)
    simp only [List.length_cons]
    omega

lemma fastPath_spec (s : List Nat) : ∀ b : EscBuf, ∃ t : List Nat,
    (fastPath s b).2.buf = b.buf ++ t ∧ s = t ++ (fastPath s b).1 ∧ escMap t = t := by
  induction s with
  | nil => intro b; exact ⟨[], by simp [fastPath], by simp [fastPath], rfl⟩
  | cons x xs ih =>
    intro b
    by_cases h : x ≠ 92 ∧ x ≠ 34 ∧ 32 ≤ x
    · obtain ⟨t, h1, h2, h3⟩ := ih (pushB b x)
      refine ⟨x :: t, ?_, ?_, ?_⟩
      · rw [fastPath, if_pos h, h1]
        simp [pushB]
      · rw [fastPath, if_pos h]
        rw [show x :: t ++ (fastPath xs (pushB b x)).1 = x :: (t ++ (fastPath xs (pushB b x)).1) from rfl]
        rw [← h2]
      · rw [show escMap (x :: t) = escapeByte x ++ escMap t from rfl,
            escapeByte_clean x h.2.2 h.1 h.2.1, h3]
        rfl
    · refine ⟨[], ?_, ?_, rfl⟩
      · rw [fastPath, if_neg h]
        simp
      · rw [fastPath, if_neg h]
        simp

lemma fastPath_high (s : List Nat) : ∀ b : EscBuf,
    (fastPath s b).2.high ≤ max b.high (b.buf.length + s.length) := by
  induction s with
  | nil => intro b; simp [fastPath]
  | cons x xs ih =>
    intro b
    by_cases h : x ≠ 92 ∧ x ≠ 34 ∧ 32 ≤ x
    · rw [fastPath, if_pos h]
      have hx := ih (pushB b x)
      have e1 : (pushB b x).high = max b.high (b.buf.length + 1) := rfl
      have e2 : (pushB b x).buf.length = b.buf.length + 1 := by simp [pushB]
      rw [e1, e2] at hx
      simp only [List.length_cons]
      omega
    · rw [fastPath, if_neg h]
      simp only [List.length_cons]
      omega

lemma fastPath_len (s : List Nat) : ∀ b : EscBuf,
    (fastPath s b).2.buf.length ≤ b.buf.length + s.length := by
  intro b
  obtain ⟨t, h1, h2, _⟩ := fastPath_spec s b
  have : t.length ≤ s.length := by
    rw [h2]
    simp
  rw [h1]
  simp
  omega

lemma slowLoop_okSink (s : List Nat) : ∀ (ctx : EncodeContext) (b : EscBuf),
    ctx.sink = okSink →
    ∃ k o b2, slowLoop ctx b s = (Status.ok, { ctx with callCount := k, out := o }, b2) ∧
      o ++ b2.buf = ctx.out ++ b.buf ++ escMap s := by
  induction s with
  | nil =>
    intro ctx b hs
    exact ⟨ctx.callCount, ctx.out, b, rfl, by simp [escMap]⟩
  | cons x xs ih =>
    intro ctx b hs
    rw [slowLoop]
    by_cases hfl : b.buf.length + 6 > workBufferSize
    · rw [if_pos hfl]
      have hadd : addJSONData ctx b.buf =
          (Status.ok, { ctx with callCount := ctx.callCount + 1, out := ctx.out ++ b.buf }) := by
        simp [addJSONData, hs, okSink]
      rw [hadd]
      simp only [reduceIte]
      obtain ⟨k, o, b2, hloop, hout⟩ := ih
        { ctx with callCount := ctx.callCount + 1, out := ctx.out ++ b.buf }
        (pushBytes { buf := [], high := b.high } (escapeByte x)) (by simp [hs])
      rw [hloop]
      refine ⟨k, o, b2, rfl, ?_⟩
      rw [hout, pushBytes_buf]
      simp [escMap, escMap_append]
    · rw [if_neg hfl]
      obtain ⟨k, o, b2, hloop, hout⟩ := ih ctx (pushBytes b (escapeByte x)) hs
      rw [hloop]
      refine ⟨k, o, b2, rfl, ?_⟩
      rw [hout, pushBytes_buf]
      simp [escMap, escMap_append]



lemma slowLoop_high (s : List Nat) : ∀ (ctx : EncodeContext) (b : EscBuf),
    b.buf.length ≤ workBufferSize →
    (slowLoop ctx b s).2.2.high ≤ max b.high workBufferSize := by
  induction s with
  | nil =>
    intro ctx b hb
    simp [slowLoop]
  | cons x xs ih =>
    intro ctx b hb
    rw [slowLoop]
    have hesc := escapeByte_length x
    have hwb : workBufferSize = 512 := rfl
    by_cases hfl : b.buf.length + 6 > workBufferSize
    · rw [if_pos hfl]
      by_cases hok : (addJSONData ctx b.buf).1 = Status.ok
      · rw [if_pos hok]
        have hlen2 : (pushBytes { buf := [], high := b.high } (escapeByte x)).buf.length
            ≤ workBufferSize := by
          rw [pushBytes_buf]
          simp
          omega
        have h2 := ih (addJSONData ctx b.buf).2
          (pushBytes { buf := [], high := b.high } (escapeByte x)) hlen2
        have h3 := pushBytes_high (escapeByte x) { buf := [], high := b.high }
        simp only [List.length_nil, Nat.zero_add] at h3
        omega
      · rw [if_neg hok]
        simp only
        omega
    · rw [if_neg hfl]
      have hlen2 : (pushBytes b (escapeByte x)).buf.length ≤ workBufferSize := by
        rw [pushBytes_buf]
        simp
        omega
      have h2 := ih ctx (pushBytes b (escapeByte x)) hlen2
      have h3 := pushBytes_high (escapeByte x) b
      omega

lemma appendEscaped_high (ctx : EncodeContext) (s : List Nat)
    (hlen : s.length ≤ workBufferSize) :
    (bsg_ksjsoncodec_i_appendEscapedString ctx s).2.2 ≤ workBufferSize := by
  unfold bsg_ksjsoncodec_i_appendEscapedString
  dsimp only
  have hfh := fastPath_high s { buf := [], high := 0 }
  have hfl := fastPath_len s { buf := [], high := 0 }
  simp only [List.length_nil, Nat.zero_add] at hfh hfl
  have hsl := slowLoop_high (fastPath s { buf := [], high := 0 }).1 ctx
    (fastPath s { buf := [], high := 0 }).2 (by omega)
  by_cases hok : (slowLoop ctx (fastPath s { buf := [], high := 0 }).2
      (fastPath s { buf := [], high := 0 }).1).1 = Status.ok
  · rw [if_pos hok]
    simp only
    omega
  · rw [if_neg hok]
    simp only
    omega

lemma addEscapedFuel_high : ∀ (fuel : Nat) (ctx : EncodeContext) (s : List Nat),
    (addEscapedFuel fuel ctx s).2.2 ≤ workBufferSize := by
  intro fuel
  induction fuel with
  | zero =>
    intro ctx s
    cases s with
    | nil => simp [addEscapedFuel, workBufferSize]
    | cons x xs => simp [addEscapedFuel, workBufferSize]
  | succ f ih =>
    intro ctx s
    cases s with
    | nil => simp [addEscapedFuel, workBufferSize]
    | cons x xs =>
      rw [addEscapedFuel]
      dsimp only
      have hp := appendEscaped_high ctx ((x :: xs).take workBufferSize) (by simp)
      by_cases hok : (bsg_ksjsoncodec_i_appendEscapedString ctx
          ((x :: xs).take workBufferSize)).1 = Status.ok
      · rw [if_pos hok]
        have hq := ih (bsg_ksjsoncodec_i_appendEscapedString ctx
          ((x :: xs).take workBufferSize)).2.1 ((x :: xs).drop workBufferSize)
        simp only
        omega
      · rw [if_neg hok]
        exact hp

lemma appendEscaped_okSink (ctx : EncodeContext) (s : List Nat) (hs : ctx.sink = okSink) :
    (bsg_ksjsoncodec_i_appendEscapedString ctx s).1 = Status.ok ∧
    ∃ k, (bsg_ksjsoncodec_i_appendEscapedString ctx s).2.1 =
      { ctx with callCount := k, out := ctx.out ++ escMap s } := by
  obtain ⟨t, hbuf, hsplit, hesc⟩ := fastPath_spec s { buf := [], high := 0 }
  obtain ⟨k, o, b2, hloop, hout⟩ :=
    slowLoop_okSink (fastPath s { buf := [], high := 0 }).1 ctx
      (fastPath s { buf := [], high := 0 }).2 hs
  unfold bsg_ksjsoncodec_i_appendEscapedString
  dsimp only
  rw [hloop, if_pos rfl]
  have hob : o ++ b2.buf = ctx.out ++ escMap s := by
    rw [hout, hbuf]
    simp only [List.nil_append]
    conv_rhs => rw [hsplit]
    rw [escMap_append, hesc]
    simp
  constructor
  · simp [addJSONData, hs, okSink]
  · refine ⟨k + 1, ?_⟩
    simp [addJSONData, hob]

lemma addEscapedFuel_okSink : ∀ (fuel : Nat) (s : List Nat) (ctx : EncodeContext),
    ctx.sink = okSink → s.length ≤ fuel →
    (addEscapedFuel fuel ctx s).1 = Status.ok ∧
    ∃ k, (addEscapedFuel fuel ctx s).2.1 =
      { ctx with callCount := k, out := ctx.out ++ escMap s } := by
  intro fuel
  induction fuel with
  | zero =>
    intro s ctx hs hlen
    have hnil : s = [] := by
      cases s with
      | nil => rfl
      | cons x xs => simp at hlen
    subst hnil
    exact ⟨rfl, ctx.callCount, by simp [addEscapedFuel, escMap]⟩
  | succ f ih =>
    intro s ctx hs hlen
    cases s with
    | nil => exact ⟨rfl, ctx.callCount, by simp [addEscapedFuel, escMap]⟩
    | cons x xs =>
      have hwb : workBufferSize = 512 := rfl
      rw [addEscapedFuel]
      dsimp only
      obtain ⟨h1, k1, hctx1⟩ := appendEscaped_okSink ctx ((x :: xs).take workBufferSize) hs
      rw [h1, if_pos rfl]
      obtain ⟨h2, k2, hctx2⟩ := ih ((x :: xs).drop workBufferSize)
        (bsg_ksjsoncodec_i_appendEscapedString ctx ((x :: xs).take workBufferSize)).2.1
        (by rw [hctx1]; exact hs) (by simp only [List.length_drop, List.length_cons]; simp only [List.length_cons] at hlen; omega)
      refine ⟨h2, k2, ?_⟩
      rw [hctx2, hctx1]
      have hsplit : escMap ((x :: xs).take workBufferSize)
          ++ escMap ((x :: xs).drop workBufferSize) = escMap (x :: xs) := by
        rw [← escMap_append, List.take_append_drop]
      simp [← hsplit]



set_option maxRecDepth 4000 in
/-- Claim C6: the escaper maps backslash and quote to backslash plus the
byte, the five named control bytes to their two-byte escapes, every other
byte below 0x20 to a six-byte uppercase \u00XX escape, and every other byte
to itself; the buffered escaper emits exactly the concatenation of these
per-byte images, and the byte run of a-quote-b escapes to a-backslash-quote-b. -/
theorem c6_escape_byte_map :
    (escapeByte 92 = [92, 92] ∧ escapeByte 34 = [92, 34]) ∧
    (escapeByte 8 = [92, 98] ∧ escapeByte 12 = [92, 102] ∧ escapeByte 10 = [92, 110] ∧
      escapeByte 13 = [92, 114] ∧ escapeByte 9 = [92, 116]) ∧
    (∀ b, b < 32 → ¬(b = 8 ∨ b = 12 ∨ b = 10 ∨ b = 13 ∨ b = 9) →
      escapeByte b = [92, 117, 48, 48, hexNybble ((b - b % 16) / 16), hexNybble (b % 16)]) ∧
    (escapeByte 1 = strBytes "\\u0001" ∧ escapeByte 31 = strBytes "\\u001F") ∧
    (∀ b, b < 256 → 32 ≤ b → ¬b = 92 → ¬b = 34 → escapeByte b = [b]) ∧
    (∀ ctx s, ctx.sink = okSink →
      (bsg_ksjsoncodec_i_addEscapedString ctx s).1 = Status.ok ∧
      (bsg_ksjsoncodec_i_addEscapedString ctx s).2.1.out = ctx.out ++ escMap s) ∧
    (bsg_ksjsoncodec_i_addEscapedString freshCompact (strBytes "a\"b")).2.1.out =
      strBytes "a\\\"b" := by
  refine ⟨by decide, by decide, by decide, by decide, by decide, ?_, by decide⟩
  intro ctx s hs
  obtain ⟨h1, k, hctx⟩ := addEscapedFuel_okSink s.length s ctx hs le_rfl
  exact ⟨h1, by rw [bsg_ksjsoncodec_i_addEscapedString, hctx]⟩

/-- Witness for claim C6: the escaper on a tab, the \u0001 escape of byte
1, and the identity on byte 97. -/
theorem c6_witness :
    (bsg_ksjsoncodec_i_addEscapedString freshCompact (strBytes "\t")).2.1.out =
      strBytes "\\t" ∧
    escapeByte 1 = [92, 117, 48, 48, 48, 49] ∧
    escapeByte 97 = [97] := by
  refine ⟨?_, ?_, ?_⟩
  · have h := (c6_escape_byte_map.2.2.2.2.2.1 freshCompact (strBytes "\t") rfl).2
    rw [h]
    decide
  · exact c6_escape_byte_map.2.2.1 1 (by decide) (by decide)
  · exact c6_escape_byte_map.2.2.2.2.1 97 (by decide) (by decide) (by decide) (by decide)

/-- Claim C7: the ghost high-water mark of the escaper work buffer, one
past the largest index written, never exceeds the buffer capacity: the
chunking wrapper bounds it for input of any length, and a single
append bounds it for any chunk of at most the buffer size. -/
theorem c7_escape_buffer_bound :
    (∀ ctx s, (bsg_ksjsoncodec_i_addEscapedString ctx s).2.2 ≤ workBufferSize) ∧
    (∀ ctx s, s.length ≤ workBufferSize →
      (bsg_ksjsoncodec_i_appendEscapedString ctx s).2.2 ≤ workBufferSize) := by
  constructor
  · intro ctx s
    exact addEscapedFuel_high s.length ctx s
  · intro ctx s hlen
    exact appendEscaped_high ctx s hlen

/-- Witness for claim C7 on a concrete two-byte chunk. -/
theorem c7_witness :
    (bsg_ksjsoncodec_i_appendEscapedString freshCompact (strBytes "ab")).2.2 ≤
      workBufferSize :=
  c7_escape_buffer_bound.2 freshCompact (strBytes "ab") (by decide)

lemma indentLoop_okSink : ∀ (n : Nat) (ctx : EncodeContext), ctx.sink = okSink →
    indentLoop ctx n =
      (Status.ok,
       { ctx with
          callCount := ctx.callCount + n
          out := ctx.out ++ indentBytes n }) := by
  intro n
  induction n with
  | zero =>
    intro ctx hs
    simp [indentLoop, indentBytes]
  | succ m ih =>
    intro ctx hs
    obtain ⟨sk, cc, o, pp, lvl, iso, fe⟩ := ctx
    simp only at hs
    subst hs
    rw [indentLoop]
    dsimp only
    rw [show addJSONData ⟨okSink, cc, o, pp, lvl, iso, fe⟩ [32, 32, 32, 32] =
      (Status.ok, ⟨okSink, cc + 1, o ++ [32, 32, 32, 32], pp, lvl, iso, fe⟩) from rfl]
    rw [if_pos rfl]
    rw [ih ⟨okSink, cc + 1, o ++ [32, 32, 32, 32], pp, lvl, iso, fe⟩ rfl]
    simp only [indentBytes, Prod.mk.injEq, EncodeContext.mk.injEq, List.append_assoc,
      true_and]
    constructor
    · omega
    · constructor <;> rfl

lemma indentLoop_firstEntry : ∀ (n : Nat) (ctx : EncodeContext),
    (indentLoop ctx n).2.containerFirstEntry = ctx.containerFirstEntry := by
  intro n
  induction n with
  | zero => intro ctx; rfl
  | succ m ih =>
    intro ctx
    rw [indentLoop]
    by_cases hok : (addJSONData ctx [32, 32, 32, 32]).1 = Status.ok
    · rw [if_pos hok, ih]
      rfl
    · rw [if_neg hok]
      rfl

lemma endContainer_okSink (ctx : EncodeContext) (hs : ctx.sink = okSink)
    (hl : 0 < ctx.containerLevel) :
    ∃ k, bsg_ksjsonendContainer ctx =
      (Status.ok,
       { ctx with
          containerLevel := ctx.containerLevel - 1
          containerFirstEntry := false
          callCount := k
          out := ctx.out ++
            ((if ctx.prettyPrint ∧ ctx.containerFirstEntry = false then
              10 :: indentBytes (ctx.containerLevel - 1).toNat else []) ++
            [if ctx.isObject ctx.containerLevel then 125 else 93]) }) := by
  obtain ⟨sk, cc, o, pp, lvl, iso, fe⟩ := ctx
  simp only at hs hl ⊢
  subst hs
  rw [bsg_ksjsonendContainer]
  dsimp only
  rw [if_neg (by omega)]
  by_cases hpf : pp = true ∧ fe = false
  · rw [if_pos hpf]
    rw [show addJSONData ⟨okSink, cc, o, pp, lvl - 1, iso, fe⟩ [10] =
      (Status.ok, ⟨okSink, cc + 1, o ++ [10], pp, lvl - 1, iso, fe⟩) from rfl]
    rw [if_pos rfl]
    rw [indentLoop_okSink (lvl - 1).toNat ⟨okSink, cc + 1, o ++ [10], pp, lvl - 1, iso, fe⟩ rfl]
    dsimp only
    rw [if_neg (by simp)]
    refine ⟨cc + 1 + (lvl - 1).toNat + 1, ?_⟩
    rw [if_pos hpf]
    simp [addJSONData, okSink, hpf.1, hpf.2]
    by_cases hio : iso lvl = true <;> simp [hio]
  · rw [if_neg hpf]
    dsimp only
    rw [if_neg (by simp)]
    refine ⟨cc + 1, ?_⟩
    rw [if_neg hpf]
    simp [addJSONData, okSink]
    by_cases hio : iso lvl = true <;> simp [hio]



lemma endEncodeFuel_okSink : ∀ (n : Nat) (ctx : EncodeContext), ctx.sink = okSink →
    ctx.containerLevel.toNat = n → 0 ≤ ctx.containerLevel →
    (endEncodeFuel n ctx).1 = Status.ok ∧
    (endEncodeFuel n ctx).2.containerLevel = 0 ∧
    (endEncodeFuel n ctx).2.out = ctx.out ++ closeSeq ctx.prettyPrint ctx.isObject n
      ctx.containerLevel ctx.containerFirstEntry := by
  intro n
  induction n with
  | zero =>
    intro ctx hs hn h0
    have hz : ctx.containerLevel = 0 := by omega
    rw [endEncodeFuel]
    simp [closeSeq, hz]
  | succ m ih =>
    intro ctx hs hn h0
    have hpos : 0 < ctx.containerLevel := by omega
    rw [endEncodeFuel]
    rw [if_pos hpos]
    obtain ⟨k, hend⟩ := endContainer_okSink ctx hs hpos
    rw [hend]
    rw [if_pos rfl]
    obtain ⟨ih1, ih2, ih3⟩ := ih
      { ctx with
          containerLevel := ctx.containerLevel - 1
          containerFirstEntry := false
          callCount := k
          out := ctx.out ++
            ((if ctx.prettyPrint ∧ ctx.containerFirstEntry = false then
              10 :: indentBytes (ctx.containerLevel - 1).toNat else []) ++
            [if ctx.isObject ctx.containerLevel then 125 else 93]) }
      (by exact hs) (by simp only; omega) (by simp only; omega)
    refine ⟨ih1, ih2, ?_⟩
    rw [ih3]
    show _ ++ _ = ctx.out ++ closeSeq ctx.prettyPrint ctx.isObject (m + 1)
      ctx.containerLevel ctx.containerFirstEntry
    rw [closeSeq]
    simp [List.append_assoc]

lemma endContainer_failSink (ctx : EncodeContext) (hs : ctx.sink = failSink)
    (hp : ctx.prettyPrint = false) (hl : 0 < ctx.containerLevel) :
    bsg_ksjsonendContainer ctx =
      (Status.cannotAddData,
       { ctx with
          containerLevel := ctx.containerLevel - 1
          containerFirstEntry := false
          callCount := ctx.callCount + 1
          out := ctx.out ++ [if ctx.isObject ctx.containerLevel then 125 else 93] }) := by
  obtain ⟨sk, cc, o, pp, lvl, iso, fe⟩ := ctx
  simp only at hs hp hl ⊢
  subst hs
  subst hp
  rw [bsg_ksjsonendContainer]
  dsimp only
  rw [if_neg (by omega)]
  rw [if_neg (by simp)]
  rw [if_neg (by simp)]
  simp [addJSONData, failSink]
  by_cases hio : iso lvl = true <;> simp [hio]



/-- Claim C8: over an accepting sink, endEncode closes all open containers
from innermost to outermost, emitting for each popped level its matching
closing bracket (with pretty-mode newline and indentation as recorded by
closeSeq), returns OK and leaves depth 0; over a rejecting sink it returns
the failing status of the first close and attempts no further closes: the
depth drops by exactly one and exactly one sink call is made. -/
theorem c8_end_encode :
    (∀ ctx : EncodeContext, ctx.sink = okSink → 0 ≤ ctx.containerLevel →
      (bsg_ksjsonendEncode ctx).1 = Status.ok ∧
      (bsg_ksjsonendEncode ctx).2.containerLevel = 0 ∧
      (bsg_ksjsonendEncode ctx).2.out = ctx.out ++ closeSeq ctx.prettyPrint ctx.isObject
        ctx.containerLevel.toNat ctx.containerLevel ctx.containerFirstEntry) ∧
    (∀ ctx : EncodeContext, ctx.sink = failSink → ctx.prettyPrint = false →
      0 < ctx.containerLevel →
      (bsg_ksjsonendEncode ctx).1 = Status.cannotAddData ∧
      (bsg_ksjsonendEncode ctx).2.containerLevel = ctx.containerLevel - 1 ∧
      (bsg_ksjsonendEncode ctx).2.callCount = ctx.callCount + 1) := by
  constructor
  · intro ctx hs h0
    exact endEncodeFuel_okSink ctx.containerLevel.toNat ctx hs rfl h0
  · intro ctx hs hp hl
    rw [bsg_ksjsonendEncode]
    obtain ⟨m, hm⟩ : ∃ m, ctx.containerLevel.toNat = m + 1 :=
      ⟨ctx.containerLevel.toNat - 1, by omega⟩
    rw [hm, endEncodeFuel]
    rw [if_pos hl, endContainer_failSink ctx hs hp hl]
    rw [if_neg (by simp)]
    refine ⟨rfl, by simp, by simp⟩

/-- Witness for claim C8: a context with an object and a nested array open
closes both in reverse order of opening, and a failing context stops after
the first close. -/
theorem c8_witness :
    (bsg_ksjsonendEncode twoOpen).1 = Status.ok ∧
    (bsg_ksjsonendEncode twoOpen).2.out = strBytes "\x7b\"a\":[]\x7d" ∧
    (bsg_ksjsonendEncode twoOpenFail).1 = Status.cannotAddData ∧
    (bsg_ksjsonendEncode twoOpenFail).2.containerLevel = 1 := by
  have ha := c8_end_encode.1 twoOpen rfl (by decide)
  have hb := c8_end_encode.2 twoOpenFail rfl rfl (by decide)
  refine ⟨ha.1, ?_, hb.1, ?_⟩
  · rw [ha.2.2]
    decide
  · rw [hb.2.1]
    decide

/-- Claim C9: after a complete top-level value (depth 0, first-entry flag
cleared), a further beginObject, beginArray or typed adder at the root
succeeds and emits a separating comma before its own output, so multiple
root values are emitted comma separated rather than rejected. -/
theorem c9_second_root_value :
    ∀ ctx : EncodeContext, ctx.sink = okSink → ctx.prettyPrint = false →
    ctx.containerLevel = 0 → ctx.containerFirstEntry = false → ctx.isObject 0 = false →
    ((bsg_ksjsonbeginObject ctx none).1 = Status.ok ∧
      (bsg_ksjsonbeginObject ctx none).2.out = ctx.out ++ [44, 123]) ∧
    ((bsg_ksjsonbeginArray ctx none).1 = Status.ok ∧
      (bsg_ksjsonbeginArray ctx none).2.out = ctx.out ++ [44, 91]) ∧
    ((bsg_ksjsonaddIntegerElement ctx none 5).1 = Status.ok ∧
      (bsg_ksjsonaddIntegerElement ctx none 5).2.out = ctx.out ++ [44, 53]) := by
  intro ctx hs hp hl hf hiso
  obtain ⟨sk, cc, o, pp, lvl, iso, fe⟩ := ctx
  simp only at hs hp hl hf hiso
  subst hs
  subst hp
  subst hl
  subst hf
  have hbe : bsg_ksjsonbeginElement ⟨okSink, cc, o, false, 0, iso, false⟩ none =
      (Status.ok, ⟨okSink, cc + 1, o ++ [44], false, 0, iso, false⟩) := by
    simp [bsg_ksjsonbeginElement, addJSONData, okSink, hiso]
  have h5 : int64_to_string 5 = [53] := by decide
  refine ⟨⟨?_, ?_⟩, ⟨?_, ?_⟩, ⟨?_, ?_⟩⟩
  · simp [bsg_ksjsonbeginObject, hbe, addJSONData, okSink]
  · simp [bsg_ksjsonbeginObject, hbe, addJSONData, okSink]
  · simp [bsg_ksjsonbeginArray, hbe, addJSONData, okSink]
  · simp [bsg_ksjsonbeginArray, hbe, addJSONData, okSink]
  · simp [bsg_ksjsonaddIntegerElement, hbe, addJSONData, okSink, h5]
  · simp [bsg_ksjsonaddIntegerElement, hbe, addJSONData, okSink, h5]

/-- Witness for claim C9: after the root value null, beginObject emits
comma brace and addInteger emits comma digit. -/
theorem c9_witness :
    (bsg_ksjsonbeginObject afterRootValue none).1 = Status.ok ∧
    (bsg_ksjsonbeginObject afterRootValue none).2.out = strBytes "null,\x7b" ∧
    (bsg_ksjsonaddIntegerElement afterRootValue none 5).1 = Status.ok ∧
    (bsg_ksjsonaddIntegerElement afterRootValue none 5).2.out = strBytes "null,5" := by
  have h := c9_second_root_value afterRootValue rfl rfl (by decide) (by decide) (by decide)
  refine ⟨h.1.1, ?_, h.2.2.1, ?_⟩
  · rw [h.1.2]
    decide
  · rw [h.2.2.2]
    decide

lemma endContainer_clearsFirstEntry (ctx : EncodeContext)
    (hl : 0 < ctx.containerLevel) :
    (bsg_ksjsonendContainer ctx).2.containerFirstEntry = false := by
  rw [bsg_ksjsonendContainer]
  dsimp only
  rw [if_neg (by omega)]
  split_ifs with h1 h2 h3 h4 h5
  all_goals simp_all [indentLoop_firstEntry, addJSONData]

/-- Claim C10: every endContainer call on positive depth leaves the
first-entry flag false, whatever the sink does, so the just-closed container
counts as an element of its parent; consequently the next element begun in
the parent is preceded by a comma. -/
theorem c10_end_container_first_entry :
    (∀ ctx : EncodeContext, 0 < ctx.containerLevel →
      (bsg_ksjsonendContainer ctx).2.containerFirstEntry = false) ∧
    (∀ ctx : EncodeContext, ctx.sink = okSink → ctx.prettyPrint = false →
      0 < ctx.containerLevel → ctx.isObject (ctx.containerLevel - 1) = false →
      (bsg_ksjsonbeginElement (bsg_ksjsonendContainer ctx).2 none).1 = Status.ok ∧
      (bsg_ksjsonbeginElement (bsg_ksjsonendContainer ctx).2 none).2.out =
        (bsg_ksjsonendContainer ctx).2.out ++ [44]) := by
  constructor
  · exact endContainer_clearsFirstEntry
  · intro ctx hs hp hl hiso
    obtain ⟨k, hend⟩ := endContainer_okSink ctx hs hl
    rw [hend]
    obtain ⟨sk, cc, o, pp, lvl, iso, fe⟩ := ctx
    simp only at hs hp hl hiso ⊢
    subst hs
    subst hp
    constructor
    · simp [bsg_ksjsonbeginElement, addJSONData, okSink, hiso]
    · simp [bsg_ksjsonbeginElement, addJSONData, okSink, hiso]

/-- Witness for claim C10 on two nested arrays. -/
theorem c10_witness :
    (bsg_ksjsonendContainer twoArrays).2.containerFirstEntry = false ∧
    (bsg_ksjsonbeginElement (bsg_ksjsonendContainer twoArrays).2 none).2.out =
      (bsg_ksjsonendContainer twoArrays).2.out ++ [44] := by
  refine ⟨c10_end_container_first_entry.1 twoArrays (by decide), ?_⟩
  exact (c10_end_container_first_entry.2 twoArrays rfl rfl (by decide) (by decide)).2

end BSGKSJSON
